import Mathlib

/-
Formal model of the face-recognition attendance backend.

The embedding covers the parts of the source that the verified properties
are about:

* `SupabaseService.mark_attendance` and `SupabaseService.get_all_attendance`
  (src/supabase_service.py): the day-scoped attendance ledger with its
  bounded retry loop.  The storage layer is modelled by an outcome oracle
  (`StorageOutcome` / `QueryOutcome`) indexed by the attempt number, and the
  wall clock by a function from the attempt number to the pair
  (local date string, UTC timestamp string), exactly the two values the
  source derives from `get_ph_datetime` on each attempt.
* `ArcFaceService.calculate_similarity` and
  `ArcFaceService.recognize_face_from_image` (src/arcface_service.py):
  cosine similarity over exact rationals/reals (floating point replaced by
  exact arithmetic) and the linear best-match scan.
* the cooldown gate of the `/recognize` route and
  `AutoReloadManager._monitor_loop` (src/flask_app.py).

Python strings are Lean `String`s, floats are `ℚ` (exact values) or `ℝ`
(similarity values, which involve square roots), dictionaries keyed by user
id are association lists in insertion order.
-/

/-- Python `str.lower()` restricted to the ASCII error text it is applied to. -/
def lowerStr (s : String) : String := ⟨s.data.map Char.toLower⟩

/-- The character list `n` starts at the head of `h`. -/
def matchesAt : List Char → List Char → Bool
  | [], _ => true
  | _ :: _, [] => false
  | a :: as, b :: bs => a == b && matchesAt as bs

/-- The character list `n` occurs contiguously somewhere in the second list. -/
def containsSeq (n : List Char) : List Char → Bool
  | [] => n.isEmpty
  | b :: bs => matchesAt n (b :: bs) || containsSeq n bs

/-- Python's substring test `needle in hay`. -/
def strContains (hay needle : String) : Bool := containsSeq needle.data hay.data

/-- The transient-error test of the retry loops in src/supabase_service.py:
`("SSL" in error_msg or "timeout" in error_msg.lower() or "connection" in
error_msg.lower())`. -/
def transientError (e : String) : Bool :=
  strContains e "SSL" || strContains (lowerStr e) "timeout" ||
    strContains (lowerStr e) "connection"

/-- The profile fields `mark_attendance` reads out of `user_data` (each read
through `.get(key, default)`, so every field is a plain string here). -/
structure UserData where
  firstName : String
  lastName : String
  email : String
  userType : String
  companyName : String
  jobTitle : String
  deriving DecidableEq

/-- A row of the `attendance` table, with the columns `mark_attendance`
writes. -/
structure AttendanceRecord where
  userId : String
  firstName : String
  lastName : String
  email : String
  userType : String
  company : String
  jobTitle : String
  scanTime : String
  scanDate : String
  status : String
  deriving DecidableEq

/-- The dictionary returned by `mark_attendance`.  Keys that are present only
on some paths are `Option`s. -/
structure MarkResult where
  success : Bool
  message : String
  existing : Option Bool
  attendance_time : Option String
  skip_display : Option Bool
  deriving DecidableEq

/-- Outcome of one attempt of the storage calls inside `mark_attendance`:
either both the select and the insert succeed, or the select raises with the
given error text, or the select succeeds and the insert raises. -/
inductive StorageOutcome where
  | ok : StorageOutcome
  | selectErr : String → StorageOutcome
  | insertErr : String → StorageOutcome
  deriving DecidableEq

/-- The select filter of `mark_attendance`:
`.eq('userId', user_id).eq('scanDate', today)`. -/
def matchesKey (u today : String) (r : AttendanceRecord) : Bool :=
  r.userId == u && r.scanDate == today

/-- The `attendance_data` dictionary `mark_attendance` inserts. -/
def mkAttendanceRecord (u : String) (ud : UserData) (today curTime : String) :
    AttendanceRecord :=
  { userId := u, firstName := ud.firstName, lastName := ud.lastName,
    email := ud.email, userType := ud.userType, company := ud.companyName,
    jobTitle := ud.jobTitle, scanTime := curTime, scanDate := today,
    status := "PRESENT" }

/-- Result of a full `mark_attendance` call together with the resulting table
state, the sleeps performed (in seconds, one entry per retry) and the number
of attempts executed. -/
structure MarkOut where
  res : MarkResult
  db : List AttendanceRecord
  sleeps : List Nat
  attempts : Nat
  deriving DecidableEq

/-- The body of the `for attempt in range(max_retries)` loop of
`mark_attendance`, by recursion on the remaining number of attempts
(`fuel`); `idx` is the current attempt index.  The retry guard
`attempt < max_retries - 1` of the source is exactly `fuel ≠ 0` here.  The
`fuel = 0` base case is the fall-through `return` after the loop. -/
def markAux (beh : Nat → StorageOutcome) (clock : Nat → String × String)
    (u : String) (ud : UserData) (db : List AttendanceRecord) :
    Nat → Nat → MarkOut
  | 0, _ =>
    ⟨⟨false, "Failed to mark attendance - network connectivity issues",
      none, none, none⟩, db, [], 0⟩
  | fuel + 1, idx =>
    match beh idx with
    | .selectErr e =>
      if transientError e = true ∧ fuel ≠ 0 then
        let rest := markAux beh clock u ud db fuel (idx + 1)
        ⟨rest.res, rest.db, 2 :: rest.sleeps, rest.attempts + 1⟩
      else
        ⟨⟨false, "Error marking attendance: " ++ e, none, none, none⟩,
          db, [], 1⟩
    | .insertErr e =>
      match (db.filter (matchesKey u (clock idx).1)).head? with
      | some r =>
        ⟨⟨true, "Welcome back! You already checked in today at " ++ r.scanTime,
          some true, some r.scanTime, some true⟩, db, [], 1⟩
      | none =>
        if transientError e = true ∧ fuel ≠ 0 then
          let rest := markAux beh clock u ud db fuel (idx + 1)
          ⟨rest.res, rest.db, 2 :: rest.sleeps, rest.attempts + 1⟩
        else
          ⟨⟨false, "Error marking attendance: " ++ e, none, none, none⟩,
            db, [], 1⟩
    | .ok =>
      match (db.filter (matchesKey u (clock idx).1)).head? with
      | some r =>
        ⟨⟨true, "Welcome back! You already checked in today at " ++ r.scanTime,
          some true, some r.scanTime, some true⟩, db, [], 1⟩
      | none =>
        ⟨⟨true, "Welcome! Attendance marked successfully", some false,
          some (clock idx).2, some false⟩,
          db ++ [mkAttendanceRecord u ud (clock idx).1 (clock idx).2], [], 1⟩

/-- `SupabaseService.mark_attendance` with `max_retries = 3`. -/
def mark_attendance (beh : Nat → StorageOutcome) (clock : Nat → String × String)
    (u : String) (ud : UserData) (db : List AttendanceRecord) : MarkOut :=
  markAux beh clock u ud db 3 0

/-- Sample profile used by concrete instantiations. -/
def sampleUser : UserData :=
  ⟨"Ada", "Lovelace", "ada@example.com", "PARTICIPANT", "AnalyticalEngines", "Engineer"⟩

/-- Sample clock: every attempt happens on the same local day. -/
def sampleClock : Nat → String × String :=
  fun _ => ("2025-01-01", "2024-12-31 16:00:00.000+00")

/-- C1: with a storage layer that raises nothing, `mark_attendance` is
idempotent per `(userId, scanDate)`: if a row for the key already exists the
call succeeds with `existing = true` and the stored row's `scanTime`, and the
table is unchanged; if no row exists, exactly the new row is appended and the
call reports `existing = false`; and a second call on the same day after a
fresh insert returns the inserted row's timestamp with the table again
unchanged. -/
theorem mark_attendance_idempotent (clock : Nat → String × String)
    (u : String) (ud : UserData) (db : List AttendanceRecord) :
    (∀ r, ((db.filter (matchesKey u (clock 0).1)).head? = some r) →
      (mark_attendance (fun _ => .ok) clock u ud db).res =
        ⟨true, "Welcome back! You already checked in today at " ++ r.scanTime,
          some true, some r.scanTime, some true⟩ ∧
      (mark_attendance (fun _ => .ok) clock u ud db).db = db) ∧
    ((db.filter (matchesKey u (clock 0).1)) = [] →
      (mark_attendance (fun _ => .ok) clock u ud db).res.success = true ∧
      (mark_attendance (fun _ => .ok) clock u ud db).res.existing = some false ∧
      (mark_attendance (fun _ => .ok) clock u ud db).db =
        db ++ [mkAttendanceRecord u ud (clock 0).1 (clock 0).2] ∧
      (∀ clock2 : Nat → String × String, (clock2 0).1 = (clock 0).1 →
        (mark_attendance (fun _ => .ok) clock2 u ud
            (mark_attendance (fun _ => .ok) clock u ud db).db).res.existing =
          some true ∧
        (mark_attendance (fun _ => .ok) clock2 u ud
            (mark_attendance (fun _ => .ok) clock u ud db).db).res.attendance_time =
          some (clock 0).2 ∧
        (mark_attendance (fun _ => .ok) clock2 u ud
            (mark_attendance (fun _ => .ok) clock u ud db).db).db =
          (mark_attendance (fun _ => .ok) clock u ud db).db)) := by
  constructor
  · intro r hr
    simp [mark_attendance, markAux, hr]
  · intro hempty
    have hhead : (db.filter (matchesKey u (clock 0).1)).head? = none := by
      simp [hempty]
    refine ⟨by simp [mark_attendance, markAux, hhead], by simp [mark_attendance, markAux, hhead],
      by simp [mark_attendance, markAux, hhead], ?_⟩
    intro clock2 hday
    have hdb1 : (mark_attendance (fun _ => .ok) clock u ud db).db =
        db ++ [mkAttendanceRecord u ud (clock 0).1 (clock 0).2] := by
      simp [mark_attendance, markAux, hhead]
    have hfind0 : List.find? (matchesKey u (clock 0).1) db = none := by
      rw [List.find?_eq_none]
      intro x hx
      have := List.filter_eq_nil_iff.mp hempty x hx
      simpa using this
    have hfind2 : List.find? (matchesKey u (clock2 0).1) db = none := by
      rw [hday]; exact hfind0
    rw [hdb1]
    refine ⟨?_, ?_, ?_⟩ <;>
      simp [mark_attendance, markAux, hfind0, hfind2, hday, matchesKey,
        mkAttendanceRecord]

/-- Witness for C1 at a concrete table, profile and clock. -/
theorem mark_attendance_idempotent_witness :
    (mark_attendance (fun _ => .ok) sampleClock "u1" sampleUser []).res.existing =
      some false ∧
    (mark_attendance (fun _ => .ok) sampleClock "u1" sampleUser
        (mark_attendance (fun _ => .ok) sampleClock "u1" sampleUser []).db).res.existing =
      some true := by
  have h := (mark_attendance_idempotent sampleClock "u1" sampleUser []).2 (by decide)
  exact ⟨h.2.1, (h.2.2.2 sampleClock rfl).1⟩

/-- The error raised by attempt `i` of `mark_attendance`, if any: a select
error is raised before anything else, an insert error only when the select
found no existing row (otherwise the function returns before inserting). -/
def attemptError (beh : Nat → StorageOutcome) (clock : Nat → String × String)
    (u : String) (db : List AttendanceRecord) (i : Nat) : Option String :=
  match beh i with
  | .ok => none
  | .selectErr e => some e
  | .insertErr e =>
    match (db.filter (matchesKey u (clock i).1)).head? with
    | some _ => none
    | none => some e

/-- Retry behaviour of the `mark_attendance` loop, by induction on the
remaining fuel: at most `fuel` attempts run, at least one runs when fuel is
positive, every retry sleeps exactly 2 seconds, an attempt is retried only
after a transient error, and a non-transient error stops the loop at once
with a failure carrying the error text. -/
lemma markAux_retry_spec (beh : Nat → StorageOutcome) (clock : Nat → String × String)
    (u : String) (ud : UserData) (db : List AttendanceRecord) :
    ∀ fuel idx,
      (markAux beh clock u ud db fuel idx).attempts ≤ fuel ∧
      (fuel ≠ 0 → 1 ≤ (markAux beh clock u ud db fuel idx).attempts) ∧
      (markAux beh clock u ud db fuel idx).sleeps =
        List.replicate ((markAux beh clock u ud db fuel idx).attempts - 1) 2 ∧
      (∀ i, i + 1 < (markAux beh clock u ud db fuel idx).attempts →
        ∃ e, attemptError beh clock u db (idx + i) = some e ∧
          transientError e = true) ∧
      (∀ i e, i < (markAux beh clock u ud db fuel idx).attempts →
        attemptError beh clock u db (idx + i) = some e →
        transientError e = false →
        (markAux beh clock u ud db fuel idx).attempts = i + 1 ∧
        (markAux beh clock u ud db fuel idx).res.success = false ∧
        (markAux beh clock u ud db fuel idx).res.message =
          "Error marking attendance: " ++ e) := by
  intro fuel
  induction fuel with
  | zero =>
    intro idx
    refine ⟨by simp [markAux], by simp, by simp [markAux], ?_, ?_⟩
    · intro i hi
      simp [markAux] at hi
    · intro i e hi
      simp [markAux] at hi
  | succ n ih =>
    intro idx
    cases hb : beh idx with
    | ok =>
      have hM : ∃ r1 : MarkResult × List AttendanceRecord,
          markAux beh clock u ud db (n + 1) idx = ⟨r1.1, r1.2, [], 1⟩ := by
        cases hh : (db.filter (matchesKey u (clock idx).1)).head? with
        | some r =>
          exact ⟨⟨⟨true, "Welcome back! You already checked in today at " ++ r.scanTime,
            some true, some r.scanTime, some true⟩, db⟩, by simp [markAux, hb, hh]⟩
        | none =>
          exact ⟨⟨⟨true, "Welcome! Attendance marked successfully", some false,
            some (clock idx).2, some false⟩,
            db ++ [mkAttendanceRecord u ud (clock idx).1 (clock idx).2]⟩,
            by simp [markAux, hb, hh]⟩
      obtain ⟨r1, hM⟩ := hM
      rw [hM]
      refine ⟨by simp, fun _ => le_refl 1, by simp, ?_, ?_⟩
      · intro i hi
        simp at hi
      · intro i e hi he ht
        have hi0 : i = 0 := by simpa using hi
        rw [hi0, Nat.add_zero] at he
        simp [attemptError, hb] at he
    | selectErr e0 =>
      by_cases hc : transientError e0 = true ∧ n ≠ 0
      · obtain ⟨ih1, ih0, ih2, ih3, ih4⟩ := ih (idx + 1)
        have hM : markAux beh clock u ud db (n + 1) idx =
            ⟨(markAux beh clock u ud db n (idx + 1)).res,
              (markAux beh clock u ud db n (idx + 1)).db,
              2 :: (markAux beh clock u ud db n (idx + 1)).sleeps,
              (markAux beh clock u ud db n (idx + 1)).attempts + 1⟩ := by
          simp [markAux, hb, hc]
        rw [hM]
        refine ⟨by simpa using ih1, fun _ => by simp, ?_, ?_, ?_⟩
        · have hge := ih0 hc.2
          simp only [Nat.add_sub_cancel]
          rw [ih2]
          have h1 : (markAux beh clock u ud db n (idx + 1)).attempts =
              ((markAux beh clock u ud db n (idx + 1)).attempts - 1) + 1 := by
            omega
          conv_rhs => rw [h1]
          rw [List.replicate_succ]
        · intro i hi
          cases i with
          | zero =>
            exact ⟨e0, by simp [attemptError, hb], hc.1⟩
          | succ j =>
            have hj : j + 1 < (markAux beh clock u ud db n (idx + 1)).attempts := by
              simpa using Nat.lt_of_succ_lt_succ hi
            obtain ⟨e, he, ht⟩ := ih3 j hj
            refine ⟨e, ?_, ht⟩
            rw [show idx + (j + 1) = idx + 1 + j by omega]
            exact he
        · intro i e hi he ht
          cases i with
          | zero =>
            rw [Nat.add_zero] at he
            have he0 : e0 = e := by simpa [attemptError, hb] using he
            rw [← he0, hc.1] at ht
            simp at ht
          | succ j =>
            have hj : j < (markAux beh clock u ud db n (idx + 1)).attempts := by
              simpa using Nat.lt_of_succ_lt_succ hi
            have he' : attemptError beh clock u db (idx + 1 + j) = some e := by
              rw [show idx + 1 + j = idx + (j + 1) by omega]
              exact he
            obtain ⟨ha, hs, hm⟩ := ih4 j e hj he' ht
            exact ⟨by simp [ha], hs, hm⟩
      · have hM : markAux beh clock u ud db (n + 1) idx =
            ⟨⟨false, "Error marking attendance: " ++ e0, none, none, none⟩,
              db, [], 1⟩ := by
          simp [markAux, hb, hc]
        rw [hM]
        refine ⟨by simp, fun _ => le_refl 1, by simp, ?_, ?_⟩
        · intro i hi
          simp at hi
        · intro i e hi he ht
          have hi0 : i = 0 := by simpa using hi
          rw [hi0, Nat.add_zero] at he
          have he0 : e0 = e := by simpa [attemptError, hb] using he
          subst he0
          exact ⟨by simp [hi0], rfl, rfl⟩
    | insertErr e0 =>
      cases hh : (db.filter (matchesKey u (clock idx).1)).head? with
      | some r =>
        have hM : markAux beh clock u ud db (n + 1) idx =
            ⟨⟨true, "Welcome back! You already checked in today at " ++ r.scanTime,
              some true, some r.scanTime, some true⟩, db, [], 1⟩ := by
          simp [markAux, hb, hh]
        rw [hM]
        refine ⟨by simp, fun _ => le_refl 1, by simp, ?_, ?_⟩
        · intro i hi
          simp at hi
        · intro i e hi he ht
          have hi0 : i = 0 := by simpa using hi
          rw [hi0, Nat.add_zero] at he
          simp [attemptError, hb, hh] at he
      | none =>
        by_cases hc : transientError e0 = true ∧ n ≠ 0
        · obtain ⟨ih1, ih0, ih2, ih3, ih4⟩ := ih (idx + 1)
          have hM : markAux beh clock u ud db (n + 1) idx =
              ⟨(markAux beh clock u ud db n (idx + 1)).res,
                (markAux beh clock u ud db n (idx + 1)).db,
                2 :: (markAux beh clock u ud db n (idx + 1)).sleeps,
                (markAux beh clock u ud db n (idx + 1)).attempts + 1⟩ := by
            simp [markAux, hb, hh, hc]
          rw [hM]
          refine ⟨by simpa using ih1, fun _ => by simp, ?_, ?_, ?_⟩
          · have hge := ih0 hc.2
            simp only [Nat.add_sub_cancel]
            rw [ih2]
            have h1 : (markAux beh clock u ud db n (idx + 1)).attempts =
                ((markAux beh clock u ud db n (idx + 1)).attempts - 1) + 1 := by
              omega
            conv_rhs => rw [h1]
            rw [List.replicate_succ]
          · intro i hi
            cases i with
            | zero =>
              exact ⟨e0, by simp [attemptError, hb, hh], hc.1⟩
            | succ j =>
              have hj : j + 1 < (markAux beh clock u ud db n (idx + 1)).attempts := by
                simpa using Nat.lt_of_succ_lt_succ hi
              obtain ⟨e, he, ht⟩ := ih3 j hj
              refine ⟨e, ?_, ht⟩
              rw [show idx + (j + 1) = idx + 1 + j by omega]
              exact he
          · intro i e hi he ht
            cases i with
            | zero =>
              rw [Nat.add_zero] at he
              have he0 : e0 = e := by simpa [attemptError, hb, hh] using he
              rw [← he0, hc.1] at ht
              simp at ht
            | succ j =>
              have hj : j < (markAux beh clock u ud db n (idx + 1)).attempts := by
                simpa using Nat.lt_of_succ_lt_succ hi
              have he' : attemptError beh clock u db (idx + 1 + j) = some e := by
                rw [show idx + 1 + j = idx + (j + 1) by omega]
                exact he
              obtain ⟨ha, hs, hm⟩ := ih4 j e hj he' ht
              exact ⟨by simp [ha], hs, hm⟩
        · have hM : markAux beh clock u ud db (n + 1) idx =
              ⟨⟨false, "Error marking attendance: " ++ e0, none, none, none⟩,
                db, [], 1⟩ := by
            simp [markAux, hb, hh, hc]
          rw [hM]
          refine ⟨by simp, fun _ => le_refl 1, by simp, ?_, ?_⟩
          · intro i hi
            simp at hi
          · intro i e hi he ht
            have hi0 : i = 0 := by simpa using hi
            rw [hi0, Nat.add_zero] at he
            have he0 : e0 = e := by simpa [attemptError, hb, hh] using he
            subst he0
            exact ⟨by simp [hi0], rfl, rfl⟩

/-- Outcome of one attempt of the select inside `get_all_attendance`: the
post-filter row set, or the error text the query raised. -/
inductive QueryOutcome where
  | ok : List AttendanceRecord → QueryOutcome
  | err : String → QueryOutcome
  deriving DecidableEq

/-- The dictionary returned by `get_all_attendance` (the success path carries
no `message` key). -/
structure GetAllResult where
  success : Bool
  message : Option String
  data : List AttendanceRecord
  count : Nat
  deriving DecidableEq

/-- Result of a full `get_all_attendance` call with its retry trace. -/
structure GetAllOut where
  res : GetAllResult
  sleeps : List Nat
  attempts : Nat
  deriving DecidableEq

/-- The service-role hint `get_all_attendance` returns on permission-denied
errors. -/
def permissionHint : String :=
  "Permission denied accessing database. Make sure you\x27re using the SERVICE_ROLE key (not anon key) in your .env file. Get it from Supabase Dashboard > Settings > API > service_role key."

/-- The credential hint `get_all_attendance` returns on unauthorized errors. -/
def authHint : String :=
  "Unauthorized access to database. Check your SUPABASE_URL and SUPABASE_KEY in the .env file."

/-- The message selection of the final `else` branch of `get_all_attendance`:
permission-denied and unauthorized errors get an actionable hint, everything
else the plain error text. -/
def failureHint (e : String) : String :=
  if strContains (lowerStr e) "permission denied" || strContains e "42501" then
    permissionHint
  else if strContains (lowerStr e) "unauthorized" || strContains e "401" then
    authHint
  else
    "Error getting attendance: " ++ e

/-- The error raised by attempt `i` of `get_all_attendance`, if any. -/
def queryError (beh : Nat → QueryOutcome) (i : Nat) : Option String :=
  match beh i with
  | .ok _ => none
  | .err e => some e

/-- The body of the retry loop of `get_all_attendance`, by recursion on the
remaining number of attempts; on success the rows are returned with
`scanTime` converted to local time by `conv`
(`convert_utc_to_ph_time`, kept abstract). -/
def getAllAux (beh : Nat → QueryOutcome) (conv : String → String) :
    Nat → Nat → GetAllOut
  | 0, _ =>
    ⟨⟨false, some "All retry attempts failed - network connectivity issues",
      [], 0⟩, [], 0⟩
  | fuel + 1, idx =>
    match beh idx with
    | .ok rows =>
      let rows2 := rows.map (fun r => { r with scanTime := conv r.scanTime })
      ⟨⟨true, none, rows2, rows2.length⟩, [], 1⟩
    | .err e =>
      if transientError e = true ∧ fuel ≠ 0 then
        let rest := getAllAux beh conv fuel (idx + 1)
        ⟨rest.res, 2 :: rest.sleeps, rest.attempts + 1⟩
      else
        ⟨⟨false, some (failureHint e), [], 0⟩, [], 1⟩

/-- `SupabaseService.get_all_attendance` with `max_retries = 3`. -/
def get_all_attendance (beh : Nat → QueryOutcome) (conv : String → String) :
    GetAllOut :=
  getAllAux beh conv 3 0

/-- Retry behaviour of the `get_all_attendance` loop, mirroring
`markAux_retry_spec`. -/
lemma getAllAux_retry_spec (beh : Nat → QueryOutcome) (conv : String → String) :
    ∀ fuel idx,
      (getAllAux beh conv fuel idx).attempts ≤ fuel ∧
      (fuel ≠ 0 → 1 ≤ (getAllAux beh conv fuel idx).attempts) ∧
      (getAllAux beh conv fuel idx).sleeps =
        List.replicate ((getAllAux beh conv fuel idx).attempts - 1) 2 ∧
      (∀ i, i + 1 < (getAllAux beh conv fuel idx).attempts →
        ∃ e, queryError beh (idx + i) = some e ∧ transientError e = true) ∧
      (∀ i e, i < (getAllAux beh conv fuel idx).attempts →
        queryError beh (idx + i) = some e → transientError e = false →
        (getAllAux beh conv fuel idx).attempts = i + 1 ∧
        (getAllAux beh conv fuel idx).res.success = false ∧
        (getAllAux beh conv fuel idx).res.message = some (failureHint e)) := by
  intro fuel
  induction fuel with
  | zero =>
    intro idx
    refine ⟨by simp [getAllAux], by simp, by simp [getAllAux], ?_, ?_⟩
    · intro i hi
      simp [getAllAux] at hi
    · intro i e hi
      simp [getAllAux] at hi
  | succ n ih =>
    intro idx
    cases hb : beh idx with
    | ok rows =>
      have hM : getAllAux beh conv (n + 1) idx =
          ⟨⟨true, none, rows.map (fun r => { r with scanTime := conv r.scanTime }),
            (rows.map (fun r => { r with scanTime := conv r.scanTime })).length⟩,
            [], 1⟩ := by
        simp [getAllAux, hb]
      rw [hM]
      refine ⟨by simp, fun _ => le_refl 1, by simp, ?_, ?_⟩
      · intro i hi
        simp at hi
      · intro i e hi he ht
        have hi0 : i = 0 := by simpa using hi
        rw [hi0, Nat.add_zero] at he
        simp [queryError, hb] at he
    | err e0 =>
      by_cases hc : transientError e0 = true ∧ n ≠ 0
      · obtain ⟨ih1, ih0, ih2, ih3, ih4⟩ := ih (idx + 1)
        have hM : getAllAux beh conv (n + 1) idx =
            ⟨(getAllAux beh conv n (idx + 1)).res,
              2 :: (getAllAux beh conv n (idx + 1)).sleeps,
              (getAllAux beh conv n (idx + 1)).attempts + 1⟩ := by
          simp [getAllAux, hb, hc]
        rw [hM]
        refine ⟨by simpa using ih1, fun _ => by simp, ?_, ?_, ?_⟩
        · have hge := ih0 hc.2
          simp only [Nat.add_sub_cancel]
          rw [ih2]
          have h1 : (getAllAux beh conv n (idx + 1)).attempts =
              ((getAllAux beh conv n (idx + 1)).attempts - 1) + 1 := by
            omega
          conv_rhs => rw [h1]
          rw [List.replicate_succ]
        · intro i hi
          cases i with
          | zero =>
            exact ⟨e0, by simp [queryError, hb], hc.1⟩
          | succ j =>
            have hj : j + 1 < (getAllAux beh conv n (idx + 1)).attempts := by
              simpa using Nat.lt_of_succ_lt_succ hi
            obtain ⟨e, he, ht⟩ := ih3 j hj
            refine ⟨e, ?_, ht⟩
            rw [show idx + (j + 1) = idx + 1 + j by omega]
            exact he
        · intro i e hi he ht
          cases i with
          | zero =>
            rw [Nat.add_zero] at he
            have he0 : e0 = e := by simpa [queryError, hb] using he
            rw [← he0, hc.1] at ht
            simp at ht
          | succ j =>
            have hj : j < (getAllAux beh conv n (idx + 1)).attempts := by
              simpa using Nat.lt_of_succ_lt_succ hi
            have he' : queryError beh (idx + 1 + j) = some e := by
              rw [show idx + 1 + j = idx + (j + 1) by omega]
              exact he
            obtain ⟨ha, hs, hm⟩ := ih4 j e hj he' ht
            exact ⟨by simp [ha], hs, hm⟩
      · have hM : getAllAux beh conv (n + 1) idx =
            ⟨⟨false, some (failureHint e0), [], 0⟩, [], 1⟩ := by
          simp [getAllAux, hb, hc]
        rw [hM]
        refine ⟨by simp, fun _ => le_refl 1, by simp, ?_, ?_⟩
        · intro i hi
          simp at hi
        · intro i e hi he ht
          have hi0 : i = 0 := by simpa using hi
          rw [hi0, Nat.add_zero] at he
          have he0 : e0 = e := by simpa [queryError, hb] using he
          subst he0
          exact ⟨by simp [hi0], rfl, rfl⟩

/-- C5 amended: both attendance storage operations run at most 3 attempts;
every retry is preceded by a fixed 2-second sleep; an attempt is retried
only when it failed with a transient transport error (substring match for
SSL, timeout or connection in the error text); and a non-transient failure
stops the loop at its attempt and is surfaced immediately — on the write
path (`mark_attendance`) with only the raw error text, on the read path
(`get_all_attendance`) routed through the diagnostic-hint selection
(`failureHint`, which maps permission-denied errors to the service-role
hint). -/
theorem attendance_retry_policy (beh : Nat → StorageOutcome)
    (clock : Nat → String × String) (u : String) (ud : UserData)
    (db : List AttendanceRecord) (gbeh : Nat → QueryOutcome)
    (conv : String → String) :
    (mark_attendance beh clock u ud db).attempts ≤ 3 ∧
    (mark_attendance beh clock u ud db).sleeps =
      List.replicate ((mark_attendance beh clock u ud db).attempts - 1) 2 ∧
    (∀ i, i + 1 < (mark_attendance beh clock u ud db).attempts →
      ∃ e, attemptError beh clock u db i = some e ∧ transientError e = true) ∧
    (∀ i e, i < (mark_attendance beh clock u ud db).attempts →
      attemptError beh clock u db i = some e → transientError e = false →
      (mark_attendance beh clock u ud db).attempts = i + 1 ∧
      (mark_attendance beh clock u ud db).res.success = false ∧
      (mark_attendance beh clock u ud db).res.message =
        "Error marking attendance: " ++ e) ∧
    (get_all_attendance gbeh conv).attempts ≤ 3 ∧
    (get_all_attendance gbeh conv).sleeps =
      List.replicate ((get_all_attendance gbeh conv).attempts - 1) 2 ∧
    (∀ i, i + 1 < (get_all_attendance gbeh conv).attempts →
      ∃ e, queryError gbeh i = some e ∧ transientError e = true) ∧
    (∀ i e, i < (get_all_attendance gbeh conv).attempts →
      queryError gbeh i = some e → transientError e = false →
      (get_all_attendance gbeh conv).attempts = i + 1 ∧
      (get_all_attendance gbeh conv).res.success = false ∧
      (get_all_attendance gbeh conv).res.message = some (failureHint e)) := by
  obtain ⟨m1, _, m2, m3, m4⟩ := markAux_retry_spec beh clock u ud db 3 0
  obtain ⟨g1, _, g2, g3, g4⟩ := getAllAux_retry_spec gbeh conv 3 0
  refine ⟨m1, m2, ?_, ?_, g1, g2, ?_, ?_⟩
  · intro i hi
    obtain ⟨e, he, ht⟩ := m3 i hi
    exact ⟨e, by simpa using he, ht⟩
  · intro i e hi he ht
    exact m4 i e hi (by simpa using he) ht
  · intro i hi
    obtain ⟨e, he, ht⟩ := g3 i hi
    exact ⟨e, by simpa using he, ht⟩
  · intro i e hi he ht
    exact g4 i e hi (by simpa using he) ht

/-- An always-transient storage failure. -/
def behSSL : Nat → StorageOutcome := fun _ => .selectErr "SSL handshake failed"

/-- An always-permission-denied query failure. -/
def behPerm : Nat → QueryOutcome :=
  fun _ => .err "permission denied for table attendance"

set_option maxRecDepth 8192 in
/-- Witness for C5: a persistent SSL failure runs at most 3 attempts, and a
permission-denied query failure is surfaced with the service-role hint. -/
theorem attendance_retry_policy_witness :
    (mark_attendance behSSL sampleClock "u1" sampleUser []).attempts ≤ 3 ∧
    (get_all_attendance behPerm id).res.message = some permissionHint := by
  have h := attendance_retry_policy behSSL sampleClock "u1" sampleUser [] behPerm id
  refine ⟨h.1, ?_⟩
  have h4 := h.2.2.2.2.2.2.2
  have hc := h4 0 "permission denied for table attendance" (by decide) (by decide)
    (by decide)
  rw [hc.2.2]
  decide

/-- C5 counterexample: a permission-denied failure of the attendance write
path is non-transient and surfaced immediately, but with only the raw error
text — `mark_attendance` attaches no diagnostic hint: its message is the
plain prefixed error text and in particular not the service-role hint that
the read path produces for the same error. -/
theorem mark_attendance_no_hint_counterexample :
    (mark_attendance (fun _ => .insertErr "permission denied for table attendance")
      sampleClock "u3" sampleUser []).res.message =
      "Error marking attendance: permission denied for table attendance" ∧
    (mark_attendance (fun _ => .insertErr "permission denied for table attendance")
      sampleClock "u3" sampleUser []).res.message ≠ permissionHint := by
  constructor
  · decide
  · decide

/-- The error text of a Postgres unique-constraint violation. -/
def dupKeyErr : String := "duplicate key value violates unique constraint"

/-- C3 counterexample: when the insert of `mark_attendance` fails with a
unique-constraint violation (a concurrent writer inserted the same
`(userId, scanDate)` key between the select and the insert), the call
returns failure — `success = false` and no `existing` key at all — rather
than success with `existing = true`. -/
theorem mark_attendance_conflict_counterexample :
    (mark_attendance (fun _ => .insertErr dupKeyErr) sampleClock "u1"
      sampleUser []).res.success = false ∧
    (mark_attendance (fun _ => .insertErr dupKeyErr) sampleClock "u1"
      sampleUser []).res.existing = none := by
  decide

/-- C3 amended: an insert failure whose error text is non-transient (as a
unique-constraint violation is: it mentions neither SSL, timeout nor
connection) makes `mark_attendance` return failure at once: `success =
false`, no `existing` key, the error text in the message, no retry and no
table change. -/
theorem mark_attendance_conflict_fails (clock : Nat → String × String)
    (u : String) (ud : UserData) (db : List AttendanceRecord) (e : String)
    (hempty : db.filter (matchesKey u (clock 0).1) = [])
    (hnt : transientError e = false) :
    (mark_attendance (fun _ => .insertErr e) clock u ud db).res.success = false ∧
    (mark_attendance (fun _ => .insertErr e) clock u ud db).res.existing = none ∧
    (mark_attendance (fun _ => .insertErr e) clock u ud db).res.message =
      "Error marking attendance: " ++ e ∧
    (mark_attendance (fun _ => .insertErr e) clock u ud db).db = db ∧
    (mark_attendance (fun _ => .insertErr e) clock u ud db).attempts = 1 := by
  have hfind : List.find? (matchesKey u (clock 0).1) db = none := by
    rw [List.find?_eq_none]
    intro x hx
    have := List.filter_eq_nil_iff.mp hempty x hx
    simpa using this
  refine ⟨?_, ?_, ?_, ?_, ?_⟩ <;> simp [mark_attendance, markAux, hfind, hnt]

/-- Witness for the amended C3 at a concrete empty table and the duplicate-key
error text. -/
theorem mark_attendance_conflict_fails_witness :
    (mark_attendance (fun _ => .insertErr dupKeyErr) sampleClock "u2"
      sampleUser []).res.message = "Error marking attendance: " ++ dupKeyErr := by
  exact (mark_attendance_conflict_fails sampleClock "u2" sampleUser [] dupKeyErr
    (by decide) (by decide)).2.2.1

/-- Dot product of rational vectors (`np.dot` over exact values; trailing
elements of the longer vector are ignored, as with equal-length embeddings
nothing is ignored). -/
def dotQ : List ℚ → List ℚ → ℚ
  | [], _ => 0
  | _, [] => 0
  | a :: as, b :: bs => a * b + dotQ as bs

/-- Squared L2 norm (`np.linalg.norm(e) ** 2`) of a rational vector. -/
def normSqQ (e : List ℚ) : ℚ := dotQ e e

/-- Dot product over the reals. -/
noncomputable def dotR : List ℝ → List ℝ → ℝ
  | [], _ => 0
  | _, [] => 0
  | a :: as, b :: bs => a * b + dotR as bs

/-- L2 normalization `e / np.linalg.norm(e)` of
`ArcFaceService.calculate_similarity`, over exact reals. -/
noncomputable def normalizeEmb (e : List ℚ) : List ℝ :=
  e.map (fun x : ℚ => (x : ℝ) / Real.sqrt ((normSqQ e : ℚ) : ℝ))

/-- `ArcFaceService.calculate_similarity`: normalize both embeddings to unit
L2 norm, then take the dot product.  The function is total, as in the
source, whose bare `except` clause returns `0.0` on any failure; in exact
arithmetic the division by a zero norm follows the division-by-zero
convention and the zero-norm case again evaluates to 0 (see
`degenerate_similarity_zero`).  No `DegenerateEmbeddingError` exists in the
source. -/
noncomputable def calculate_similarity (e1 e2 : List ℚ) : ℝ :=
  dotR (normalizeEmb e1) (normalizeEmb e2)

/-- Dividing both vectors elementwise pulls out of the dot product. -/
lemma dotR_map_div (a b : ℝ) :
    ∀ l1 l2 : List ℝ,
      dotR (l1.map fun x => x / a) (l2.map fun x => x / b) =
        dotR l1 l2 / (a * b) := by
  intro l1
  induction l1 with
  | nil => intro l2; simp [dotR]
  | cons x xs ih =>
    intro l2
    cases l2 with
    | nil => simp [dotR]
    | cons y ys =>
      simp only [List.map_cons, dotR]
      rw [ih ys, div_mul_div_comm, add_div]

/-- The real dot product of cast vectors is the cast rational dot product. -/
lemma dotR_cast :
    ∀ e1 e2 : List ℚ,
      dotR (e1.map fun x : ℚ => (x : ℝ)) (e2.map fun x : ℚ => (x : ℝ)) =
        ((dotQ e1 e2 : ℚ) : ℝ) := by
  intro e1
  induction e1 with
  | nil => intro e2; simp [dotR, dotQ]
  | cons x xs ih =>
    intro e2
    cases e2 with
    | nil => simp [dotR, dotQ]
    | cons y ys =>
      simp only [List.map_cons, dotR, dotQ]
      rw [ih ys]
      push_cast
      ring

/-- Closed form of `calculate_similarity`: the rational dot product divided
by the product of the two L2 norms. -/
lemma calculate_similarity_eq (e1 e2 : List ℚ) :
    calculate_similarity e1 e2 =
      ((dotQ e1 e2 : ℚ) : ℝ) /
        (Real.sqrt ((normSqQ e1 : ℚ) : ℝ) * Real.sqrt ((normSqQ e2 : ℚ) : ℝ)) := by
  unfold calculate_similarity
  have h1 : normalizeEmb e1 =
      (e1.map fun x : ℚ => (x : ℝ)).map
        (fun x => x / Real.sqrt ((normSqQ e1 : ℚ) : ℝ)) := by
    rw [List.map_map]
    rfl
  have h2 : normalizeEmb e2 =
      (e2.map fun x : ℚ => (x : ℝ)).map
        (fun x => x / Real.sqrt ((normSqQ e2 : ℚ) : ℝ)) := by
    rw [List.map_map]
    rfl
  rw [h1, h2, dotR_map_div, dotR_cast]

/-- A squared norm is nonnegative. -/
lemma normSqQ_nonneg (e : List ℚ) : 0 ≤ normSqQ e := by
  induction e with
  | nil => simp [normSqQ, dotQ]
  | cons a as ih =>
    have h : normSqQ (a :: as) = a * a + normSqQ as := rfl
    rw [h]
    exact add_nonneg (mul_self_nonneg a) ih

/-- Negating the second vector negates the dot product. -/
lemma dotQ_neg_right :
    ∀ e1 e2 : List ℚ, dotQ e1 (e2.map fun x => -x) = -(dotQ e1 e2) := by
  intro e1
  induction e1 with
  | nil => intro e2; simp [dotQ]
  | cons x xs ih =>
    intro e2
    cases e2 with
    | nil => simp [dotQ]
    | cons y ys =>
      simp only [List.map_cons, dotQ]
      rw [ih ys]
      ring

/-- Negating the first vector negates the dot product. -/
lemma dotQ_neg_left :
    ∀ e1 e2 : List ℚ, dotQ (e1.map fun x => -x) e2 = -(dotQ e1 e2) := by
  intro e1
  induction e1 with
  | nil => intro e2; simp [dotQ]
  | cons x xs ih =>
    intro e2
    cases e2 with
    | nil => simp [dotQ]
    | cons y ys =>
      simp only [List.map_cons, dotQ]
      rw [ih ys]
      ring

/-- Negating a vector keeps its squared norm. -/
lemma normSqQ_neg (e : List ℚ) : normSqQ (e.map fun x => -x) = normSqQ e := by
  unfold normSqQ
  rw [dotQ_neg_left, dotQ_neg_right]
  ring

/-- C9: for every embedding with nonzero L2 norm, the normalized cosine
similarity of the embedding with itself is exactly 1, and with its negation
exactly -1, over the exact arithmetic of the embedded function. -/
theorem similarity_self_one (e : List ℚ) (h : normSqQ e ≠ 0) :
    calculate_similarity e e = 1 ∧
    calculate_similarity e (e.map fun x => -x) = -1 := by
  have hnn : (0 : ℝ) ≤ ((normSqQ e : ℚ) : ℝ) := by
    exact_mod_cast normSqQ_nonneg e
  have hne : ((normSqQ e : ℚ) : ℝ) ≠ 0 := by
    exact_mod_cast h
  constructor
  · rw [calculate_similarity_eq, Real.mul_self_sqrt hnn,
      show dotQ e e = normSqQ e from rfl]
    exact div_self hne
  · rw [calculate_similarity_eq, normSqQ_neg, Real.mul_self_sqrt hnn,
      dotQ_neg_right, show dotQ e e = normSqQ e from rfl]
    push_cast
    rw [neg_div, div_self hne]

/-- Witness for C9 at the embedding (1, 0). -/
theorem similarity_self_one_witness :
    calculate_similarity [(1 : ℚ), 0] [(1 : ℚ), 0] = 1 ∧
    calculate_similarity [(1 : ℚ), 0] ([(1 : ℚ), 0].map fun x => -x) = -1 := by
  exact similarity_self_one [(1 : ℚ), 0] (by norm_num [normSqQ, dotQ])

/-- C6 counterexample: on a zero-norm query embedding the similarity
computation of the source does not fail — it evaluates to similarity 0
against a perfectly good gallery embedding (the source has no
`DegenerateEmbeddingError` anywhere, and its `except` clause returns `0.0`
instead of raising). -/
theorem degenerate_similarity_counterexample :
    calculate_similarity [(0 : ℚ), 0] [(1 : ℚ), 0] = 0 := by
  rw [calculate_similarity_eq]
  norm_num [dotQ]

/-- C6 amended: a zero-norm embedding is not surfaced as an error;
`calculate_similarity` is total and yields similarity 0 for it (division by
the zero norm under exact arithmetic, matching the source's catch-all that
returns 0.0). -/
theorem degenerate_similarity_zero (e1 e2 : List ℚ) (h : normSqQ e1 = 0) :
    calculate_similarity e1 e2 = 0 := by
  rw [calculate_similarity_eq, h]
  simp

/-- Witness for the amended C6 at a different degenerate input. -/
theorem degenerate_similarity_zero_witness :
    calculate_similarity [(0 : ℚ)] [(2 : ℚ), 3] = 0 := by
  exact degenerate_similarity_zero [(0 : ℚ)] [(2 : ℚ), 3]
    (by norm_num [normSqQ, dotQ])

/-- The `best_match` dictionary built inside
`ArcFaceService.recognize_face_from_image` (the stored `user_data` is keyed
by `user_id`, so only the id and the similarity are tracked here). -/
structure MatchCandidate where
  user_id : String
  similarity : ℝ

/-- The `for user_id, data in self.face_database.items()` loop of
`recognize_face_from_image`: `best` and `bestSim` are the running
`best_match` / `best_similarity`, and an entry replaces them only when its
similarity strictly exceeds both the running best and the threshold. -/
noncomputable def recognizeAux (q : List ℚ) (t : ℝ) :
    List (String × List ℚ) → Option MatchCandidate → ℝ → Option MatchCandidate
  | [], best, _ => best
  | (uid, emb) :: rest, best, bestSim =>
    if calculate_similarity q emb > bestSim ∧ calculate_similarity q emb > t then
      recognizeAux q t rest (some ⟨uid, calculate_similarity q emb⟩)
        (calculate_similarity q emb)
    else
      recognizeAux q t rest best bestSim

/-- `ArcFaceService.recognize_face_from_image` after embedding extraction:
scan the gallery (`face_database` in insertion order) starting from
`best_match = None`, `best_similarity = 0.0`. -/
noncomputable def recognize_face_from_image (gallery : List (String × List ℚ))
    (q : List ℚ) (t : ℝ) : Option MatchCandidate :=
  recognizeAux q t gallery none 0

/-- Soundness invariant of the scan: provided the running best already beats
the threshold and its similarity equals the running `bestSim`, any returned
candidate beats the threshold, dominates `bestSim`, is the running best or a
gallery entry, and dominates every scanned entry. -/
lemma recognizeAux_sound (q : List ℚ) (t : ℝ) :
    ∀ (gal : List (String × List ℚ)) (best : Option MatchCandidate) (bs : ℝ),
      (∀ m0, best = some m0 → m0.similarity > t ∧ m0.similarity = bs) →
      ∀ m, recognizeAux q t gal best bs = some m →
        m.similarity > t ∧ bs ≤ m.similarity ∧
        (best = some m ∨
          ∃ p ∈ gal, m.user_id = p.1 ∧ m.similarity = calculate_similarity q p.2) ∧
        (∀ p ∈ gal, calculate_similarity q p.2 ≤ m.similarity) := by
  intro gal
  induction gal with
  | nil =>
    intro best bs hbest m hm
    have hbm : best = some m := hm
    obtain ⟨h1, h2⟩ := hbest m hbm
    exact ⟨h1, le_of_eq h2.symm, Or.inl hbm, by simp⟩
  | cons p rest ih =>
    intro best bs hbest m hm
    obtain ⟨uid, emb⟩ := p
    by_cases hc : calculate_similarity q emb > bs ∧ calculate_similarity q emb > t
    · have hm' : recognizeAux q t rest (some ⟨uid, calculate_similarity q emb⟩)
          (calculate_similarity q emb) = some m := by
        rw [recognizeAux, if_pos hc] at hm
        exact hm
      have hb' : ∀ m0, some (⟨uid, calculate_similarity q emb⟩ : MatchCandidate) = some m0 →
          m0.similarity > t ∧ m0.similarity = calculate_similarity q emb := by
        intro m0 h0
        have hmm : m0 = ⟨uid, calculate_similarity q emb⟩ := (Option.some.inj h0).symm
        subst hmm
        exact ⟨hc.2, rfl⟩
      obtain ⟨h1, h2, h3, h4⟩ := ih (some ⟨uid, calculate_similarity q emb⟩)
        (calculate_similarity q emb) hb' m hm'
      refine ⟨h1, le_trans (le_of_lt hc.1) h2, ?_, ?_⟩
      · right
        cases h3 with
        | inl heq =>
          have hmm : m = ⟨uid, calculate_similarity q emb⟩ :=
            (Option.some.inj heq).symm
          exact ⟨(uid, emb), by simp, by rw [hmm], by rw [hmm]⟩
        | inr hex =>
          obtain ⟨p0, hp0, ha, hb⟩ := hex
          exact ⟨p0, List.mem_cons_of_mem _ hp0, ha, hb⟩
      · intro p0 hp0
        rcases List.mem_cons.mp hp0 with h | h
        · rw [h]
          exact h2
        · exact h4 p0 h
    · have hm' : recognizeAux q t rest best bs = some m := by
        rw [recognizeAux, if_neg hc] at hm
        exact hm
      obtain ⟨h1, h2, h3, h4⟩ := ih best bs hbest m hm'
      refine ⟨h1, h2, ?_, ?_⟩
      · cases h3 with
        | inl heq => exact Or.inl heq
        | inr hex =>
          obtain ⟨p0, hp0, ha, hb⟩ := hex
          exact Or.inr ⟨p0, List.mem_cons_of_mem _ hp0, ha, hb⟩
      · intro p0 hp0
        rcases List.mem_cons.mp hp0 with h | h
        · rw [h]
          rcases not_and_or.mp hc with hle | hle
        -- skipped because it does not beat the running best, or the threshold
          · exact le_trans (not_lt.mp hle) h2
          · exact le_trans (not_lt.mp hle) (le_of_lt h1)
        · exact h4 p0 h

/-- When no gallery entry strictly exceeds the threshold, the scan never
changes the running best. -/
lemma recognizeAux_below (q : List ℚ) (t : ℝ) :
    ∀ (gal : List (String × List ℚ)) (best : Option MatchCandidate) (bs : ℝ),
      (∀ p ∈ gal, calculate_similarity q p.2 ≤ t) →
      recognizeAux q t gal best bs = best := by
  intro gal
  induction gal with
  | nil =>
    intro best bs _
    rfl
  | cons p rest ih =>
    intro best bs h
    obtain ⟨uid, emb⟩ := p
    have hle : calculate_similarity q emb ≤ t := h (uid, emb) (by simp)
    have hc : ¬(calculate_similarity q emb > bs ∧ calculate_similarity q emb > t) := by
      intro hcc
      exact absurd hcc.2 (not_lt.mpr hle)
    rw [recognizeAux, if_neg hc]
    exact ih best bs (fun p0 hp0 => h p0 (List.mem_cons_of_mem _ hp0))

/-- C2: for every gallery, query and threshold, `recognize_face_from_image`
returns a candidate only if that candidate is a gallery entry whose cosine
similarity strictly exceeds the threshold and is the maximum similarity over
the whole gallery; and whenever no entry strictly exceeds the threshold (in
particular for the empty gallery) the result is `none`, not an error. -/
theorem recognize_face_threshold (gallery : List (String × List ℚ))
    (q : List ℚ) (t : ℝ) :
    (∀ m, recognize_face_from_image gallery q t = some m →
      m.similarity > t ∧
      (∃ p ∈ gallery, m.user_id = p.1 ∧ m.similarity = calculate_similarity q p.2) ∧
      (∀ p ∈ gallery, calculate_similarity q p.2 ≤ m.similarity)) ∧
    ((∀ p ∈ gallery, calculate_similarity q p.2 ≤ t) →
      recognize_face_from_image gallery q t = none) := by
  constructor
  · intro m hm
    have hb : ∀ m0 : MatchCandidate, (none : Option MatchCandidate) = some m0 →
        m0.similarity > t ∧ m0.similarity = 0 := by
      intro m0 h0
      cases h0
    obtain ⟨h1, h2, h3, h4⟩ := recognizeAux_sound q t gallery none 0 hb m hm
    refine ⟨h1, ?_, h4⟩
    cases h3 with
    | inl heq => cases heq
    | inr hex => exact hex
  · intro hall
    exact recognizeAux_below q t gallery none 0 hall

/-- Witness for C2: the empty gallery yields no match at threshold 1/2. -/
theorem recognize_face_threshold_witness :
    recognize_face_from_image [] [(1 : ℚ)] ((1 : ℝ) / 2) = none := by
  exact (recognize_face_threshold [] [(1 : ℚ)] ((1 : ℝ) / 2)).2 (by simp)

/-- Python dictionary assignment `face_database[user_id] = entry` on an
insertion-ordered association list: replacement keeps the original position,
a new key is appended. -/
def dbInsert : List (String × List ℚ) → String → List ℚ → List (String × List ℚ)
  | [], uid, emb => [(uid, emb)]
  | (k, v) :: rest, uid, emb =>
    if k == uid then (k, emb) :: rest else (k, v) :: dbInsert rest uid emb

/-- Dictionary lookup `face_database[user_id]`. -/
def lookupDb : List (String × List ℚ) → String → Option (List ℚ)
  | [], _ => none
  | (k, v) :: rest, uid => if k == uid then some v else lookupDb rest uid

/-- `ArcFaceService.register_user_face` after the external download/extract
step, whose result is passed in: `none` models a failed download or a frame
with no detectable face (the function returns `False` and stores nothing);
`some emb` models a successfully extracted embedding of any length, which is
stored unconditionally — the source performs no dimensionality check. -/
def register_user_face (db : List (String × List ℚ)) (uid : String)
    (extracted : Option (List ℚ)) : Bool × List (String × List ℚ) :=
  match extracted with
  | none => (false, db)
  | some emb => (true, dbInsert db uid emb)

/-- `ArcFaceService.load_embeddings_from_database`: clear the cache, then
store each fetched row's embedding as given (`np.array(embedding)` with no
shape check). -/
def load_embeddings_from_database (rows : List (String × List ℚ)) :
    List (String × List ℚ) :=
  rows.foldl (fun db r => dbInsert db r.1 r.2) []

/-- The embedding just inserted is the one looked up. -/
lemma lookupDb_dbInsert :
    ∀ (db : List (String × List ℚ)) (uid : String) (emb : List ℚ),
      lookupDb (dbInsert db uid emb) uid = some emb := by
  intro db
  induction db with
  | nil => intro uid emb; simp [dbInsert, lookupDb]
  | cons p rest ih =>
    intro uid emb
    obtain ⟨k, v⟩ := p
    by_cases hk : k == uid
    · simp [dbInsert, lookupDb, hk]
    · simp only [dbInsert, lookupDb, hk]
      simp [hk, lookupDb]
      exact ih uid emb

/-- Every entry of an inserted dictionary is an old entry or the new pair. -/
lemma dbInsert_mem :
    ∀ (db : List (String × List ℚ)) (uid : String) (emb : List ℚ) p,
      p ∈ dbInsert db uid emb → p ∈ db ∨ p = (uid, emb) := by
  intro db
  induction db with
  | nil =>
    intro uid emb p hp
    simp [dbInsert] at hp
    exact Or.inr hp
  | cons q rest ih =>
    intro uid emb p hp
    obtain ⟨k, v⟩ := q
    by_cases hk : k == uid
    · rw [dbInsert, if_pos hk] at hp
      rcases List.mem_cons.mp hp with h | h
      · have hku : k = uid := by simpa using hk
        rw [h, hku]
        exact Or.inr rfl
      · exact Or.inl (List.mem_cons_of_mem _ h)
    · rw [dbInsert, if_neg hk] at hp
      rcases List.mem_cons.mp hp with h | h
      · rw [h]
        exact Or.inl (List.mem_cons_self _ _)
      · rcases ih uid emb p h with h2 | h2
        · exact Or.inl (List.mem_cons_of_mem _ h2)
        · exact Or.inr h2

/-- Every entry of the folded reload cache comes from the accumulator or from
the fetched rows. -/
lemma load_foldl_mem :
    ∀ (rows acc : List (String × List ℚ)) p,
      p ∈ rows.foldl (fun db r => dbInsert db r.1 r.2) acc →
      p ∈ acc ∨ p ∈ rows := by
  intro rows
  induction rows with
  | nil =>
    intro acc p hp
    exact Or.inl (by simpa using hp)
  | cons r rest ih =>
    intro acc p hp
    rcases ih (dbInsert acc r.1 r.2) p (by simpa using hp) with h | h
    · rcases dbInsert_mem acc r.1 r.2 p h with h2 | h2
      · exact Or.inl h2
      · rw [h2]
        exact Or.inr (List.mem_cons_self _ _)
    · exact Or.inr (List.mem_cons_of_mem _ h)

/-- C7 counterexample: an extracted embedding of length 3 — not the fixed
gallery dimensionality 512 — is accepted by enrollment (`True` is returned)
and stored verbatim, rather than failing with any
`EmbeddingDimensionMismatch` error (no such error exists in the source). -/
theorem register_dimension_counterexample :
    (register_user_face [] "u1" (some [(1 : ℚ), 2, 3])).1 = true ∧
    lookupDb (register_user_face [] "u1" (some [(1 : ℚ), 2, 3])).2 "u1" =
      some [(1 : ℚ), 2, 3] := by
  constructor <;> rfl

/-- Lookup after a dictionary assignment: the assigned key now maps to the
new value, every other key is untouched. -/
lemma lookupDb_dbInsert_any :
    ∀ (db : List (String × List ℚ)) (k : String) (v : List ℚ) (uid : String),
      lookupDb (dbInsert db k v) uid =
        if k == uid then some v else lookupDb db uid := by
  intro db
  induction db with
  | nil =>
    intro k v uid
    simp [dbInsert, lookupDb]
  | cons p rest ih =>
    intro k v uid
    obtain ⟨k0, v0⟩ := p
    by_cases hk : k0 = k
    · subst hk
      by_cases hu : k0 == uid <;> simp [dbInsert, lookupDb, hu]
    · have hkb : (k0 == k) = false := beq_eq_false_iff_ne.mpr hk
      by_cases hu : k0 == uid
      · have hu2 : k0 = uid := by simpa using hu
        have hku : (k == uid) = false := by
          apply beq_eq_false_iff_ne.mpr
          rw [← hu2]
          exact fun hh => hk hh.symm
        simp [dbInsert, lookupDb, hkb, hu, hku]
      · simp [dbInsert, lookupDb, hkb, hu, ih k v uid]

/-- Lookup in the reload fold: the last fetched row for a key wins, and keys
absent from the fetched rows fall through to the accumulator. -/
lemma lookupDb_load_foldl :
    ∀ (rows acc : List (String × List ℚ)) (uid : String),
      lookupDb (rows.foldl (fun db r => dbInsert db r.1 r.2) acc) uid =
        ((rows.reverse.find? (fun r => r.1 == uid)).map Prod.snd).or
          (lookupDb acc uid) := by
  intro rows
  induction rows with
  | nil =>
    intro acc uid
    simp [Option.or]
  | cons r rest ih =>
    intro acc uid
    rw [List.foldl_cons, ih (dbInsert acc r.1 r.2) uid, lookupDb_dbInsert_any,
      List.reverse_cons, List.find?_append]
    cases hf : rest.reverse.find? (fun r0 => r0.1 == uid) with
    | some r0 => simp [hf, Option.or]
    | none =>
      by_cases hr : r.1 == uid <;> simp [hf, hr, Option.or]

/-- The cache built by `load_embeddings_from_database` maps every key to the
embedding of the last fetched row with that key, stored verbatim. -/
lemma lookupDb_load (rows : List (String × List ℚ)) (uid : String) :
    lookupDb (load_embeddings_from_database rows) uid =
      (rows.reverse.find? (fun r => r.1 == uid)).map Prod.snd := by
  have h := lookupDb_load_foldl rows [] uid
  rw [show lookupDb ([] : List (String × List ℚ)) uid = none from rfl,
    Option.or_none] at h
  exact h

/-- C7 amended: enrollment performs no dimensionality (or any other value)
check: every successfully extracted embedding, of whatever length, is
accepted and stored verbatim in `face_database`; and a database reload
applies no dimensionality filter either — the rebuilt cache maps every key
to exactly the embedding of the last fetched row with that key, unchanged. -/
theorem enrollment_no_dimension_check (db : List (String × List ℚ))
    (uid : String) (emb : List ℚ) (rows : List (String × List ℚ)) :
    (register_user_face db uid (some emb)).1 = true ∧
    lookupDb (register_user_face db uid (some emb)).2 uid = some emb ∧
    (∀ uid2 : String, lookupDb (load_embeddings_from_database rows) uid2 =
      (rows.reverse.find? (fun r => r.1 == uid2)).map Prod.snd) := by
  refine ⟨rfl, lookupDb_dbInsert db uid emb, ?_⟩
  intro uid2
  exact lookupDb_load rows uid2

/-- Witness for the amended C7: a length-2 embedding enrolled over a nonempty
gallery, and a reload whose single fetched row has a length-3 embedding that
is stored as given. -/
theorem enrollment_no_dimension_check_witness :
    (register_user_face [("u1", [(1 : ℚ)])] "u2" (some [(5 : ℚ), 6])).1 = true ∧
    lookupDb (register_user_face [("u1", [(1 : ℚ)])] "u2"
      (some [(5 : ℚ), 6])).2 "u2" = some [(5 : ℚ), 6] ∧
    lookupDb (load_embeddings_from_database [("u3", [(7 : ℚ), 8, 9])]) "u3" =
      some [(7 : ℚ), 8, 9] := by
  have h := enrollment_no_dimension_check [("u1", [(1 : ℚ)])] "u2" [(5 : ℚ), 6]
    [("u3", [(7 : ℚ), 8, 9])]
  refine ⟨h.1, h.2.1, ?_⟩
  rw [h.2.2 "u3"]
  rfl

/-- The JSON response of the `/recognize` route, restricted to the keys the
cooldown gate decides: `cooldown_remaining` is present only on the
suppressed path, the `user` object (represented by its id) only on the
non-suppressed paths, and `attendance` records whether
`mark_attendance` was invoked. -/
structure RecogResponse where
  success : Bool
  recognized : Bool
  cooldown_remaining : Option ℚ
  user : Option String
  attendance : Bool
  deriving DecidableEq

/-- Dictionary lookup in `self.last_recognition`. -/
def lookupLast : List (String × ℚ) → String → Option ℚ
  | [], _ => none
  | (k, v) :: rest, uid => if k == uid then some v else lookupLast rest uid

/-- Dictionary assignment `self.last_recognition[user_id] = current_time`. -/
def updateLast : List (String × ℚ) → String → ℚ → List (String × ℚ)
  | [], uid, v => [(uid, v)]
  | (k, w) :: rest, uid, v =>
    if k == uid then (k, v) :: rest else (k, w) :: updateLast rest uid v

/-- The cooldown gate of the `/recognize` route (`RECOGNITION_COOLDOWN = 3`):
a match within 3 seconds of the stored instant returns the suppressed
response (no user object, no attendance call) and returns before the tracker
update; otherwise the tracker is updated to `now` and `mark_attendance`
runs. -/
def recognize_cooldown (last : List (String × ℚ)) (uid : String) (now : ℚ) :
    RecogResponse × List (String × ℚ) :=
  match lookupLast last uid with
  | some t0 =>
    if now - t0 < 3 then
      (⟨true, true, some (3 - (now - t0)), none, false⟩, last)
    else
      (⟨true, true, none, some uid, true⟩, updateLast last uid now)
  | none => (⟨true, true, none, some uid, true⟩, updateLast last uid now)

/-- C4 counterexample: a recognition of `u1` one second after the stored
instant 0 is suppressed — `cooldown_remaining = 2` and no attendance call —
but the suppressed response contains no user object at all: the matched
identity is not reported, contrary to the claim. -/
theorem cooldown_no_identity_counterexample :
    (recognize_cooldown [("u1", 0)] "u1" 1).1.cooldown_remaining = some 2 ∧
    (recognize_cooldown [("u1", 0)] "u1" 1).1.attendance = false ∧
    (recognize_cooldown [("u1", 0)] "u1" 1).1.user = none := by
  have hl : lookupLast [("u1", (0 : ℚ))] "u1" = some 0 := rfl
  refine ⟨?_, ?_, ?_⟩ <;> norm_num [recognize_cooldown, hl]

/-- C4 amended: a second recognition of the same identity strictly less than
3 seconds after the stored instant is suppressed: the response reports that a
face was recognized and the remaining wait time, but not the matched
identity's details, and triggers no attendance write; at 3 seconds or more
the recognition proceeds, reports the identity, updates the tracker and
triggers the attendance write. -/
theorem cooldown_gate (last : List (String × ℚ)) (uid : String) (now t0 : ℚ)
    (h : lookupLast last uid = some t0) :
    (now - t0 < 3 →
      (recognize_cooldown last uid now).1 =
        ⟨true, true, some (3 - (now - t0)), none, false⟩ ∧
      (recognize_cooldown last uid now).2 = last) ∧
    (3 ≤ now - t0 →
      (recognize_cooldown last uid now).1 = ⟨true, true, none, some uid, true⟩ ∧
      (recognize_cooldown last uid now).2 = updateLast last uid now) := by
  constructor
  · intro hlt
    constructor <;> simp [recognize_cooldown, h, hlt]
  · intro hge
    have hnlt : ¬(now - t0 < 3) := not_lt.mpr hge
    constructor <;> simp [recognize_cooldown, h, hnlt]

/-- Witness for the amended C4: at 5 seconds after instant 0 the call is not
suppressed, reports the user and calls `mark_attendance`. -/
theorem cooldown_gate_witness :
    (recognize_cooldown [("u1", (0 : ℚ))] "u1" 5).1.attendance = true ∧
    (recognize_cooldown [("u1", (0 : ℚ))] "u1" 5).1.user = some "u1" := by
  have h := (cooldown_gate [("u1", (0 : ℚ))] "u1" 5 0 rfl).2 (by norm_num)
  exact ⟨by rw [h.1], by rw [h.1]⟩

/-- C10: a suppressed recognition does not touch `last_recognition` — the
route returns before the `self.last_recognition[user_id] = current_time`
line — so the window stays measured from the last non-suppressed instant
`t0`: any later call at `now2` with `now2 - t0 ≥ 3` proceeds to the
attendance write and only then updates the tracker. -/
theorem cooldown_state_frame (last : List (String × ℚ)) (uid : String)
    (now t0 : ℚ) (h : lookupLast last uid = some t0) (hlt : now - t0 < 3) :
    (recognize_cooldown last uid now).2 = last ∧
    (recognize_cooldown last uid now).1.attendance = false ∧
    (∀ now2 : ℚ, 3 ≤ now2 - t0 →
      (recognize_cooldown last uid now2).1.attendance = true ∧
      (recognize_cooldown last uid now2).2 = updateLast last uid now2) := by
  refine ⟨?_, ?_, ?_⟩
  · simp [recognize_cooldown, h, hlt]
  · simp [recognize_cooldown, h, hlt]
  · intro now2 hge
    have hnlt : ¬(now2 - t0 < 3) := not_lt.mpr hge
    constructor <;> simp [recognize_cooldown, h, hnlt]

/-- Witness for C10: after a suppressed call at 1 s the tracker still holds
instant 0, and a call at 4 s proceeds to the attendance write. -/
theorem cooldown_state_frame_witness :
    (recognize_cooldown [("u1", (0 : ℚ))] "u1" 1).2 = [("u1", (0 : ℚ))] ∧
    (recognize_cooldown [("u1", (0 : ℚ))] "u1" 4).1.attendance = true := by
  have h := cooldown_state_frame [("u1", (0 : ℚ))] "u1" 1 0 rfl (by norm_num)
  exact ⟨h.1, (h.2.2 4 (by norm_num)).1⟩

/-- The effect of one tick of `AutoReloadManager._monitor_loop`: which user
set (if any) was passed to `register_multiple_faces`, and the new
`known_user_count`. -/
structure MonitorOut where
  enrolled : Option (List String)
  known : Nat
  deriving DecidableEq

/-- One tick of `_monitor_loop`: fetch the user list (`none` models a `None`
return, whose count is 0 like an empty list); if `known_user_count` is 0 the
tick only initializes the count; otherwise a strictly larger fetched count
triggers re-enrollment over the fetched set and updates the count, and any
other count leaves everything unchanged. -/
def monitor_tick (known : Nat) (users : Option (List String)) : MonitorOut :=
  let current := (users.getD []).length
  if known == 0 then ⟨none, current⟩
  else if current > known then ⟨some (users.getD []), current⟩
  else ⟨none, known⟩

/-- C8: once the count is initialized (nonzero), a tick re-enrolls over the
fetched set and updates the stored count exactly when the fetched count is
strictly greater than the stored one; otherwise — in particular when an
identity update leaves the total count unchanged — the tick does nothing. -/
theorem monitor_tick_threshold (known : Nat) (users : Option (List String))
    (h : known ≠ 0) :
    (((monitor_tick known users).enrolled = some (users.getD []) ∧
      (monitor_tick known users).known = (users.getD []).length) ↔
      (users.getD []).length > known) ∧
    (¬(users.getD []).length > known → monitor_tick known users = ⟨none, known⟩) := by
  have hb : (known == 0) = false := beq_eq_false_iff_ne.mpr h
  constructor
  · constructor
    · rintro ⟨h1, _⟩
      by_contra hng
      simp [monitor_tick, hb, hng] at h1
    · intro hgt
      constructor <;> simp [monitor_tick, hb, hgt]
  · intro hng
    simp [monitor_tick, hb, hng]

/-- Witness for C8: a count rise from 2 to 3 re-enrolls and updates, while an
unchanged count of 3 does nothing. -/
theorem monitor_tick_threshold_witness :
    (monitor_tick 2 (some ["a", "b", "c"])).enrolled = some ["a", "b", "c"] ∧
    (monitor_tick 2 (some ["a", "b", "c"])).known = 3 ∧
    monitor_tick 3 (some ["a", "b", "c"]) = ⟨none, 3⟩ := by
  have h1 := (monitor_tick_threshold 2 (some ["a", "b", "c"]) (by decide)).1.mpr
    (by decide)
  have h2 := (monitor_tick_threshold 3 (some ["a", "b", "c"]) (by decide)).2
    (by decide)
  exact ⟨h1.1, h1.2, h2⟩
